import Mathlib

/-!
Verification of the ebcapture frame-acquisition and page-advance pipeline
(`src/ebcapture/src`).

Shallow embedding conventions:
 - raw pixel buffers are `List Nat` (one entry per byte);
 - the effectful OS primitives (compositor capture, key injection) are
   abstracted by boolean oracles, since the corresponding Rust calls return
   `Result` values whose outcome is decided by the operating system;
 - image persistence is modelled by the value returned from the function
   (which image bytes were written, and at which destination); disk I/O
   itself is assumed to succeed;
 - Rust `usize` arithmetic is `Nat` (the quantities involved are buffer
   lengths, far below 2^64, so wrapping never occurs); Rust `i32` window
   coordinates are `Int`, with `as u32` casts made explicit.
-/

/-- The error enum of `error.rs` (the two variants the verified claims
touch).  `captureFailure` is `EbCaptureError::CaptureFailure { reason }`,
`keyboardInputFailure` is `EbCaptureError::KeyboardInputFailure { reason }`.
Note the enum has no `UnsupportedPixelFormat` variant. -/
inductive EbCaptureError where
  | captureFailure (reason : String)
  | keyboardInputFailure (reason : String)
deriving DecidableEq

/-- The body of the pixel loop of `convert_bgra_to_rgba_fixed`
(capture.rs:592-602): for `y in 0..height`, `x in 0..width`, with
`idx = (y*width + x) * 4`, push R,G,B,A taken from bytes
`idx+2, idx+1, idx, idx+3` whenever `idx + 3 < frame.len()`. -/
def bgraLoop (frame : List Nat) (width height : Nat) : List Nat :=
  (List.range height).flatMap (fun y =>
    (List.range width).flatMap (fun x =>
      let idx := (y * width + x) * 4
      if idx + 3 < frame.length then
        [frame.getD (idx + 2) 0, frame.getD (idx + 1) 0,
         frame.getD idx 0, frame.getD (idx + 3) 0]
      else []))

/-- `convert_bgra_to_rgba_fixed` (capture.rs:571-624): reject a buffer whose
length is not exactly `width*height*4`, run the BGRA→RGBA byte swap, check
the produced length, build the RGBA image (`ImageBuffer::from_raw` needs at
least `width*height*4` bytes) and save it.  The returned list is the RGBA
byte content written at the destination path. -/
def convert_bgra_to_rgba_fixed (frame : List Nat) (width height : Nat) :
    Except EbCaptureError (List Nat) :=
  if frame.length ≠ width * height * 4 then
    .error (.captureFailure "BGRA 크기 불일치")
  else
    let rgba := bgraLoop frame width height
    if rgba.length ≠ frame.length then
      .error (.captureFailure "RGBA 변환 후 크기 불일치")
    else if rgba.length < width * height * 4 then
      .error (.captureFailure "RGBA ImageBuffer 생성 실패")
    else
      .ok rgba

/-- The pixel loop of `convert_bgr_to_rgba_fixed` (capture.rs:647-657):
`idx = (y*width + x) * 3`, push bytes `idx+2, idx+1, idx` and a synthesized
opaque alpha 255 whenever `idx + 2 < frame.len()`. -/
def bgrLoop (frame : List Nat) (width height : Nat) : List Nat :=
  (List.range height).flatMap (fun y =>
    (List.range width).flatMap (fun x =>
      let idx := (y * width + x) * 3
      if idx + 2 < frame.length then
        [frame.getD (idx + 2) 0, frame.getD (idx + 1) 0,
         frame.getD idx 0, 255]
      else []))

/-- `convert_bgr_to_rgba_fixed` (capture.rs:626-672). -/
def convert_bgr_to_rgba_fixed (frame : List Nat) (width height : Nat) :
    Except EbCaptureError (List Nat) :=
  if frame.length ≠ width * height * 3 then
    .error (.captureFailure "BGR 크기 불일치")
  else
    let rgba := bgrLoop frame width height
    if rgba.length < width * height * 4 then
      .error (.captureFailure "BGR→RGBA ImageBuffer 생성 실패")
    else
      .ok rgba

/-- Result of `save_frame_as_image_smart` (capture.rs:380-437).
`rgbaSaved w h data` : an RGBA image of `w×h` pixels (byte list `data`) was
written at the requested destination path.
`bmpSaved w h bpp data` : the `save_as_bmp_fixed` fallback wrote a 24-bit
RGB image of `w×h` pixels at the destination path with its extension
replaced by `"bmp"` (`output_path.with_extension("bmp")`), after reading the
source at `bpp` bytes per pixel.
`failed e` : nothing was written and the error `e` was returned. -/
inductive SmartOutcome where
  | rgbaSaved (width height : Nat) (data : List Nat)
  | bmpSaved (width height bpp : Nat) (data : List Nat)
  | failed (e : EbCaptureError)
deriving DecidableEq

/-- The bytes-per-pixel guess of `save_as_bmp_fixed` (capture.rs:717):
4 when the buffer length divides evenly by `width*4`, else 3. -/
def bmpBpp (frame : List Nat) (width : Nat) : Nat :=
  if frame.length % (width * 4) = 0 then 4 else 3

/-- The recomputed height of `save_as_bmp_fixed` (capture.rs:718). -/
def bmpHeight (frame : List Nat) (width : Nat) : Nat :=
  frame.length / (width * bmpBpp frame width)

/-- The RGB bytes `save_as_bmp_fixed` emits for pixel `i`
(capture.rs:734-753): with `idx = i * bpp`, bytes `idx+2, idx+1, idx` when
all three lie inside the buffer, and zero padding otherwise. -/
def bmpCell (frame : List Nat) (bpp i : Nat) : List Nat :=
  let idx := i * bpp
  if idx + 2 < frame.length then
    [frame.getD (idx + 2) 0, frame.getD (idx + 1) 0, frame.getD idx 0]
  else [0, 0, 0]

/-- `save_as_bmp_fixed` (capture.rs:708-770): guess 4 bytes per pixel when
the length divides evenly by `width*4` and 3 otherwise, derive the height
from the buffer length, fail when that height is 0, and otherwise emit a
24-bit RGB buffer (`y` rows of `x` cells, pixel index `y*width + x`),
zero-filling any pixel whose three source bytes are not entirely inside the
buffer.  (In Rust a zero `width` would panic on the `%`/`/`; the theorems
below therefore carry a `0 < width` hypothesis.) -/
def save_as_bmp_fixed (frame : List Nat) (width height : Nat) : SmartOutcome :=
  let bpp := bmpBpp frame width
  let actual_height := bmpHeight frame width
  if actual_height = 0 then
    .failed (.captureFailure "유효하지 않은 이미지 차원")
  else
    let rgb := (List.range actual_height).flatMap (fun y =>
      (List.range width).flatMap (fun x => bmpCell frame bpp (y * width + x)))
    if width * actual_height * 3 ≤ rgb.length then
      .bmpSaved width actual_height bpp rgb
    else
      .failed (.captureFailure "RGB ImageBuffer 생성 실패")

/-- `save_frame_as_image_smart` (capture.rs:380-437), the normalization
entry point for a raw full-screen frame.  Strictly ordered attempts:
1. exact BGRA match (`len == width*height*4`) → `convert_bgra_to_rgba_fixed`;
2. exact BGR match (`len == width*height*3`) → `convert_bgr_to_rgba_fixed`;
3. resolution recovery, tried only when `len % 4 == 0`: recompute
   `calculated_height = (len/4) / width` and retry the BGRA conversion with
   it when `0 < calculated_height ≤ height*2`;
4. otherwise fall through to the `save_as_bmp_fixed` fallback.
Each failed attempt logs a warning and falls through to the next stage. -/
def save_frame_as_image_smart (frame : List Nat) (width height : Nat) :
    SmartOutcome :=
  let step4 := save_as_bmp_fixed frame width height
  let step3 :=
    if frame.length % 4 = 0 then
      let actual_pixels := frame.length / 4
      let calculated_height := actual_pixels / width
      if 0 < calculated_height ∧ calculated_height ≤ height * 2 then
        match convert_bgra_to_rgba_fixed frame width calculated_height with
        | .ok d => SmartOutcome.rgbaSaved width calculated_height d
        | .error _ => step4
      else step4
    else step4
  let step2 :=
    if frame.length = width * height * 3 then
      match convert_bgr_to_rgba_fixed frame width height with
      | .ok d => SmartOutcome.rgbaSaved width height d
      | .error _ => step3
    else step3
  if frame.length = width * height * 4 then
    match convert_bgra_to_rgba_fixed frame width height with
    | .ok d => SmartOutcome.rgbaSaved width height d
    | .error _ => step2
  else step2

/-- `WindowRect` of window_manager.rs: screen coordinates, `i32` fields. -/
structure WindowRect where
  x : Int
  y : Int
  width : Int
  height : Int
deriving DecidableEq

/-- Rust `as u32` on an `i32` value: two's-complement wrap into `0..2^32`. -/
def u32cast (n : Int) : Nat := (n % 4294967296).toNat

/-- The crop rectangle (u32 fields) handed to `DynamicImage::crop_imm`. -/
structure CropParams where
  x : Nat
  y : Nat
  width : Nat
  height : Nat
deriving DecidableEq

/-- `crop_image_to_window` (capture.rs:216-245): if the window rectangle
fits inside the `imgW×imgH` source image it is used as is; otherwise the
origin is clamped to be non-negative and width/height are clamped to the
remaining extent but floored at 100.  The Rust function can never return an
error; we model the arguments it passes to `crop_imm`. -/
def crop_image_to_window (imgW imgH : Nat) (r : WindowRect) : CropParams :=
  let iw : Int := (imgW : Int)
  let ih : Int := (imgH : Int)
  if r.x < 0 ∨ r.y < 0 ∨ r.x + r.width > iw ∨ r.y + r.height > ih then
    { x := u32cast (max r.x 0), y := u32cast (max r.y 0),
      width := u32cast (max (min r.width (iw - max r.x 0)) 100),
      height := u32cast (max (min r.height (ih - max r.y 0)) 100) }
  else
    { x := u32cast r.x, y := u32cast r.y,
      width := u32cast r.width, height := u32cast r.height }

/-- `NavigationMethod` of keyboard.rs:106-114. -/
inductive NavigationMethod where
  | rightArrow
  | pageDown
  | space
  | click (x y : Int)
deriving DecidableEq

/-- Substring test on character lists, modelling Rust's
`str::contains(needle)` on an already lowercased title. -/
def containsSub (hay needle : List Char) : Bool :=
  (List.range (hay.length + 1)).any (fun i => needle.isPrefixOf (hay.drop i))

/-- `NavigationMethod::for_program` (keyboard.rs:116-137): keyword lookup on
the lowercased window title.  (Rust `to_lowercase` is full Unicode; the
keywords involved only differ in ASCII letters, for which `Char.toLower`
agrees.)  Note the `aladin` branch returns `RightArrow` — the `PageDown`
line is commented out in the source. -/
def NavigationMethod.for_program (program_name : String) : NavigationMethod :=
  let n := program_name.toList.map Char.toLower
  if containsSub n "ridi".toList || containsSub n "리디".toList then
    .rightArrow
  else if containsSub n "aladin".toList || containsSub n "알라딘".toList then
    .rightArrow
  else if containsSub n "yes24".toList || containsSub n "예스24".toList then
    .space
  else if containsSub n "kindle".toList then
    .rightArrow
  else if containsSub n "calibre".toList then
    .pageDown
  else
    .rightArrow

/-- One key/mouse injection performed by `navigate_with_retry`
(keyboard.rs:167-191), recorded with its outcome. -/
structure NavEvent where
  method : NavigationMethod
  ok : Bool
deriving DecidableEq

instance {ε α : Type} [DecidableEq ε] [DecidableEq α] :
    DecidableEq (Except ε α) := fun a b =>
  match a, b with
  | .ok x, .ok y =>
    if h : x = y then isTrue (by rw [h])
    else isFalse (by intro hh; injection hh; exact h (by assumption))
  | .error e, .error f =>
    if h : e = f then isTrue (by rw [h])
    else isFalse (by intro hh; injection hh; exact h (by assumption))
  | .ok _, .error _ => isFalse (fun hh => Except.noConfusion hh)
  | .error _, .ok _ => isFalse (fun hh => Except.noConfusion hh)

/-- Result of a navigation call: the Rust return value, the next unused
injection-call index, and the ordered list of injections performed. -/
structure NavResult where
  result : Except EbCaptureError Unit
  next : Nat
  events : List NavEvent
deriving DecidableEq

/-- `navigate_with_retry` (keyboard.rs:167-191): execute the given strategy
exactly once (one `send_*`/`click_at_position` call, whose OS outcome is
`inject k`), wait 300 ms, and propagate the call's result.  `k` is the
index of this injection call in the run. -/
def navigate_with_retry (inject : Nat → Bool) (k : Nat)
    (m : NavigationMethod) : Bool × Nat × List NavEvent :=
  (inject k, k + 1, [⟨m, inject k⟩])

/-- The fixed fallback chain of `try_alternative_navigation`
(keyboard.rs:197-201): directional key, page key, whitespace key. -/
def alternative_methods : List NavigationMethod :=
  [.rightArrow, .pageDown, .space]

/-- The loop of `try_alternative_navigation` (keyboard.rs:203-217): try each
method once in order, return at the first success, pause 500 ms between
failed attempts. -/
def tryMethods (inject : Nat → Bool) (k : Nat) :
    List NavigationMethod → Bool × Nat × List NavEvent
  | [] => (false, k, [])
  | m :: rest =>
    let r := navigate_with_retry inject k m
    if r.1 then (true, r.2.1, r.2.2)
    else
      let s := tryMethods inject r.2.1 rest
      (s.1, s.2.1, r.2.2 ++ s.2.2)

/-- `try_alternative_navigation` (keyboard.rs:194-222): run the fallback
chain; when every alternative fails return
`Err(KeyboardInputFailure { reason: "모든 네비게이션 방법 실패" })`. -/
def try_alternative_navigation (inject : Nat → Bool) (k : Nat) : NavResult :=
  let r := tryMethods inject k alternative_methods
  if r.1 then ⟨.ok (), r.2.1, r.2.2⟩
  else ⟨.error (.keyboardInputFailure "모든 네비게이션 방법 실패"), r.2.1, r.2.2⟩

/-- `navigate_to_next_page` (keyboard.rs:140-164): re-acquire focus
(`ensure_window_focus` never returns an error in the source), wait 500 ms,
execute the title-selected default strategy once, and only if that
injection call itself errored fall back to `try_alternative_navigation`. -/
def navigate_to_next_page (inject : Nat → Bool) (k : Nat)
    (title : String) : NavResult :=
  let m := NavigationMethod.for_program title
  let r := navigate_with_retry inject k m
  if r.1 then ⟨.ok (), r.2.1, r.2.2⟩
  else
    let s := try_alternative_navigation inject r.2.1
    ⟨s.result, s.next, r.2.2 ++ s.events⟩

/-- Observable steps of one `capture_pages` run (cli.rs:210-263 together
with `capture_window`, capture.rs:35-71). -/
inductive CapEvent where
  | directTried (page : Nat) (ok : Bool)
  | fullTried (page : Nat) (ok : Bool)
  | cropped (page : Nat)
  | saved (page : Nat) (path : String)
  | reactivated (page : Nat)
  | navigated (page : Nat) (ok : Bool)
  | manualPause (page : Nat)
deriving DecidableEq

/-- Environment of one run: for each page, whether the direct
(`PrintWindow`) capture succeeds, whether the full-display fallback
(`capture_full_screen_to_image`, including its internal 3-attempt retry)
eventually yields a frame, and whether the navigation controller
(`navigate_to_next_page`, modelled in detail above) reports success when
invoked after that page. -/
structure PageEnv where
  direct : Nat → Bool
  full : Nat → Bool
  navOk : Nat → Bool

/-- `format!("page_{:03}.png", page)` (cli.rs:226). -/
def pad3 (n : Nat) : String :=
  if n < 10 then "00" ++ toString n
  else if n < 100 then "0" ++ toString n
  else toString n

/-- The per-page image path persisted by the loop. -/
def pagePath (page : Nat) : String := "page_" ++ pad3 page ++ ".png"

/-- `capture_window` (capture.rs:35-71): attempt the direct PrintWindow
capture first; on its success save at the destination; on any failure fall
back to full-display capture, crop to the (clamped) window rectangle and
save that.  Returns whether a file was persisted plus the event trace. -/
def capture_window (env : PageEnv) (page : Nat) : Bool × List CapEvent :=
  if env.direct page then
    (true, [.directTried page true, .saved page (pagePath page)])
  else if env.full page then
    (true, [.directTried page false, .fullTried page true, .cropped page,
            .saved page (pagePath page)])
  else
    (false, [.directTried page false, .fullTried page false])

/-- The post-capture tail of one loop iteration (cli.rs:231-258): nothing
after the last page; otherwise the extra first-page reactivation
(`activate_and_bring_to_front`, only when `page == 1`), the navigation
call, and — only when navigation failed — the blocking manual-recovery
prompt, after which the loop simply continues. -/
def pageTailEvs (env : PageEnv) (total page : Nat) : List CapEvent :=
  if page < total then
    (if page = 1 then [CapEvent.reactivated page] else []) ++
    CapEvent.navigated page (env.navOk page) ::
    (if env.navOk page then [] else [CapEvent.manualPause page])
  else []

/-- The loop body of `capture_pages` over the remaining page indices: a
capture failure propagates immediately (the `?` at cli.rs:227), discarding
the accumulated paths; a successful capture appends its path and runs the
iteration tail. -/
def runPages (env : PageEnv) (total : Nat) :
    List Nat → Except EbCaptureError (List String × List CapEvent)
  | [] => .ok ([], [])
  | page :: rest =>
    let c := capture_window env page
    if c.1 then
      match runPages env total rest with
      | .ok (paths, evs) =>
          .ok (pagePath page :: paths, c.2 ++ pageTailEvs env total page ++ evs)
      | .error e => .error e
    else .error (.captureFailure "전체 화면 캡쳐 실패")

/-- `capture_pages` (cli.rs:210-263): iterate pages `1..=page_count`,
returning the ordered list of persisted paths and the event trace. -/
def capture_pages (env : PageEnv) (page_count : Nat) :
    Except EbCaptureError (List String × List CapEvent) :=
  runPages env page_count (List.range' 1 page_count)

theorem getD_append_lt (l m : List Nat) (n : Nat) (h : n < l.length) :
    (l ++ m).getD n 0 = l.getD n 0 := by
  induction l generalizing n with
  | nil => exact absurd h (by simp)
  | cons a t ih =>
    cases n with
    | zero => rfl
    | succ n =>
      simp only [List.cons_append, List.getD_cons_succ]
      exact ih n (by simpa using h)

theorem getD_append_ge (l m : List Nat) (n : Nat) (h : l.length ≤ n) :
    (l ++ m).getD n 0 = m.getD (n - l.length) 0 := by
  induction l generalizing n with
  | nil => simp
  | cons a t ih =>
    cases n with
    | zero => exact absurd h (by simp)
    | succ n =>
      simp only [List.cons_append, List.getD_cons_succ, List.length_cons]
      rw [ih n (by simpa using h)]
      congr 1
      omega

theorem range_flatMap_mul {α : Type} (w h : Nat) (g : Nat → List α) :
    (List.range h).flatMap
        (fun y => (List.range w).flatMap (fun x => g (y * w + x)))
      = (List.range (h * w)).flatMap g := by
  induction h with
  | zero => simp
  | succ h ih =>
    rw [List.range_succ, Nat.succ_mul, List.range_add]
    simp only [List.flatMap_append, List.flatMap_map, ih]
    simp

theorem flatMap_length_uniform {α : Type} (g : Nat → List α) (k : Nat)
    (l : List Nat) (hg : ∀ a ∈ l, (g a).length = k) :
    (l.flatMap g).length = l.length * k := by
  induction l with
  | nil => simp
  | cons a t ih =>
    simp only [List.flatMap_cons, List.length_append, List.length_cons]
    rw [hg a (by simp), ih (fun b hb => hg b (by simp [hb]))]
    ring

theorem flatMap_getD_uniform (g : Nat → List Nat) (k : Nat)
    (hg : ∀ a, (g a).length = k) (l : List Nat) (p j : Nat)
    (hp : p < l.length) (hj : j < k) :
    (l.flatMap g).getD (k * p + j) 0 = (g (l.getD p 0)).getD j 0 := by
  induction l generalizing p with
  | nil => simp at hp
  | cons a t ih =>
    cases p with
    | zero =>
      simp only [List.flatMap_cons, Nat.mul_zero, Nat.zero_add]
      rw [getD_append_lt _ _ j (by rw [hg]; exact hj)]
      rfl
    | succ p =>
      simp only [List.flatMap_cons]
      have hk1 : k ≤ k * (p + 1) + j := by
        have h1 : k * 1 ≤ k * (p + 1) := Nat.mul_le_mul_left k (by omega)
        simpa using le_trans h1 (Nat.le_add_right _ _)
      rw [getD_append_ge _ _ _ (by rw [hg]; exact hk1)]
      have harith : k * (p + 1) + j - (g a).length = k * p + j := by
        rw [hg]; ring_nf; omega
      rw [harith, ih p (by simpa using hp)]
      rfl

theorem range_getD (n i : Nat) (h : i < n) : (List.range n).getD i 0 = i := by
  rw [List.getD_eq_getElem _ _ (by simpa using h)]
  simp

/-- The four output bytes produced for pixel `i` whenever the bounds guard
of the BGRA loop holds: red from byte `idx+2`, green from `idx+1`, blue
from `idx`, alpha from `idx+3`. -/
def bgraQuad (frame : List Nat) (i : Nat) : List Nat :=
  [frame.getD (i * 4 + 2) 0, frame.getD (i * 4 + 1) 0,
   frame.getD (i * 4) 0, frame.getD (i * 4 + 3) 0]

/-- The per-pixel cell of the BGRA loop including its bounds guard. -/
def bgraCell (frame : List Nat) (i : Nat) : List Nat :=
  let idx := i * 4
  if idx + 3 < frame.length then
    [frame.getD (idx + 2) 0, frame.getD (idx + 1) 0,
     frame.getD idx 0, frame.getD (idx + 3) 0]
  else []

theorem bgraLoop_eq_cells (frame : List Nat) (w h : Nat) :
    bgraLoop frame w h = (List.range (h * w)).flatMap (bgraCell frame) :=
  range_flatMap_mul w h (bgraCell frame)

theorem bgraLoop_closed (frame : List Nat) (w h : Nat)
    (hlen : frame.length = w * h * 4) :
    bgraLoop frame w h = (List.range (h * w)).flatMap (bgraQuad frame) := by
  rw [bgraLoop_eq_cells]
  refine List.flatMap_congr ?_
  intro i hi
  have hi' : i < h * w := List.mem_range.mp hi
  have hguard : i * 4 + 3 < frame.length := by
    rw [hlen, Nat.mul_comm w h]
    omega
  unfold bgraCell bgraQuad
  simp only [if_pos hguard]

theorem bgraLoop_length (frame : List Nat) (w h : Nat)
    (hlen : frame.length = w * h * 4) :
    (bgraLoop frame w h).length = w * h * 4 := by
  rw [bgraLoop_closed frame w h hlen,
    flatMap_length_uniform (bgraQuad frame) 4 _ (fun a _ => rfl)]
  simp [Nat.mul_comm h w]

theorem convert_bgra_ok (frame : List Nat) (w h : Nat)
    (hlen : frame.length = w * h * 4) :
    convert_bgra_to_rgba_fixed frame w h = .ok (bgraLoop frame w h) := by
  unfold convert_bgra_to_rgba_fixed
  have hl := bgraLoop_length frame w h hlen
  rw [if_neg (by omega)]
  simp only [hl, hlen]
  rw [if_neg (by omega), if_neg (by omega)]

/-- C3.  For every raw frame whose length equals exactly
`width*height*4`, the normalizer takes the exact-BGRA branch and persists an
RGBA image of exactly `width × height` pixels in which, for every pixel,
output red is input byte 2, output green is input byte 1, output blue is
input byte 0, and output alpha is input byte 3. -/
theorem C3_exact_bgra_normalize (frame : List Nat) (w h : Nat)
    (hlen : frame.length = w * h * 4) :
    ∃ rgba, save_frame_as_image_smart frame w h = .rgbaSaved w h rgba ∧
      rgba.length = w * h * 4 ∧
      ∀ i, i < w * h →
        rgba.getD (4 * i) 0 = frame.getD (4 * i + 2) 0 ∧
        rgba.getD (4 * i + 1) 0 = frame.getD (4 * i + 1) 0 ∧
        rgba.getD (4 * i + 2) 0 = frame.getD (4 * i) 0 ∧
        rgba.getD (4 * i + 3) 0 = frame.getD (4 * i + 3) 0 := by
  refine ⟨bgraLoop frame w h, ?_, bgraLoop_length frame w h hlen, ?_⟩
  · unfold save_frame_as_image_smart
    rw [if_pos hlen, convert_bgra_ok frame w h hlen]
  · intro i hi
    have hi' : i < h * w := by rwa [Nat.mul_comm h w]
    have hq : ∀ j, j < 4 →
        (bgraLoop frame w h).getD (4 * i + j) 0 =
          (bgraQuad frame i).getD j 0 := by
      intro j hj
      rw [bgraLoop_closed frame w h hlen,
        flatMap_getD_uniform (bgraQuad frame) 4 (fun a => rfl)
          (List.range (h * w)) i j (by simpa using hi') hj,
        range_getD _ _ hi']
    have h0 := hq 0 (by omega)
    have h1 := hq 1 (by omega)
    have h2 := hq 2 (by omega)
    have h3 := hq 3 (by omega)
    rw [Nat.mul_comm 4 i] at h0 h1 h2 h3 ⊢
    exact ⟨by simpa [bgraQuad] using h0, by simpa [bgraQuad] using h1,
      by simpa [bgraQuad] using h2, by simpa [bgraQuad] using h3⟩

theorem convert_bgra_err (frame : List Nat) (w h : Nat)
    (hlen : frame.length ≠ w * h * 4) :
    convert_bgra_to_rgba_fixed frame w h =
      .error (.captureFailure "BGRA 크기 불일치") := by
  unfold convert_bgra_to_rgba_fixed
  rw [if_pos hlen]

/-- Under the preconditions that reach stage 3 and make it fail, the smart
saver falls through to the BMP fallback. -/
theorem smart_falls_to_bmp (frame : List Nat) (w h : Nat)
    (h4 : frame.length ≠ w * h * 4) (h3 : frame.length ≠ w * h * 3)
    (hrec : ¬(frame.length % 4 = 0 ∧ 0 < frame.length / 4 / w ∧
      frame.length / 4 / w ≤ h * 2 ∧
      w * (frame.length / 4 / w) * 4 = frame.length)) :
    save_frame_as_image_smart frame w h = save_as_bmp_fixed frame w h := by
  simp only [save_frame_as_image_smart]
  rw [if_neg h4, if_neg h3]
  by_cases hm : frame.length % 4 = 0
  · rw [if_pos hm]
    by_cases hch : 0 < frame.length / 4 / w ∧ frame.length / 4 / w ≤ h * 2
    · rw [if_pos hch]
      have hne : frame.length ≠ w * (frame.length / 4 / w) * 4 := by
        intro he
        exact hrec ⟨hm, hch.1, hch.2, he.symm⟩
      rw [convert_bgra_err frame w _ hne]
    · rw [if_neg hch]
  · rw [if_neg hm]

theorem bmpCell_length (frame : List Nat) (bpp i : Nat) :
    (bmpCell frame bpp i).length = 3 := by
  unfold bmpCell
  dsimp only
  split <;> rfl

/-- With a positive recomputed height the BMP fallback always persists, and
its pixel list is the flattened row-major cell list. -/
theorem save_as_bmp_pos (frame : List Nat) (w h : Nat)
    (hah : ¬ bmpHeight frame w = 0) :
    save_as_bmp_fixed frame w h =
      .bmpSaved w (bmpHeight frame w) (bmpBpp frame w)
        ((List.range (bmpHeight frame w * w)).flatMap
          (bmpCell frame (bmpBpp frame w))) := by
  simp only [save_as_bmp_fixed]
  rw [if_neg hah,
    range_flatMap_mul w (bmpHeight frame w) (bmpCell frame (bmpBpp frame w))]
  rw [if_pos]
  rw [flatMap_length_uniform _ 3 _ (fun a _ => bmpCell_length frame _ a)]
  simp [Nat.mul_comm (bmpHeight frame w) w, Nat.mul_assoc]

/-- C9.  Whenever a frame's byte length matches no exact layout and the
4-byte resolution recovery also fails, normalization does not return an
error: it writes a 24-bit RGB image at the destination path with its
extension replaced by `"bmp"` (the `bmpSaved` outcome), choosing 4 bytes per
pixel when the length is divisible by `width*4` and 3 otherwise, with
height = length / (width * bytes_per_pixel), zero-filling any pixel whose
source bytes extend past the buffer end; it fails only when that computed
height is 0. -/
theorem C9_bmp_fallback_spec (frame : List Nat) (w h : Nat) (hw : 0 < w)
    (h4 : frame.length ≠ w * h * 4) (h3 : frame.length ≠ w * h * 3)
    (hrec : ¬(frame.length % 4 = 0 ∧ 0 < frame.length / 4 / w ∧
      frame.length / 4 / w ≤ h * 2 ∧
      w * (frame.length / 4 / w) * 4 = frame.length)) :
    (bmpHeight frame w = 0 →
      save_frame_as_image_smart frame w h =
        .failed (.captureFailure "유효하지 않은 이미지 차원")) ∧
    (0 < bmpHeight frame w →
      ∃ rgb, save_frame_as_image_smart frame w h =
          .bmpSaved w (bmpHeight frame w) (bmpBpp frame w) rgb ∧
        rgb.length = w * bmpHeight frame w * 3 ∧
        ∀ i, i < w * bmpHeight frame w →
          (i * bmpBpp frame w + 2 < frame.length →
            rgb.getD (3 * i) 0 = frame.getD (i * bmpBpp frame w + 2) 0 ∧
            rgb.getD (3 * i + 1) 0 = frame.getD (i * bmpBpp frame w + 1) 0 ∧
            rgb.getD (3 * i + 2) 0 = frame.getD (i * bmpBpp frame w) 0) ∧
          (¬ i * bmpBpp frame w + 2 < frame.length →
            rgb.getD (3 * i) 0 = 0 ∧ rgb.getD (3 * i + 1) 0 = 0 ∧
            rgb.getD (3 * i + 2) 0 = 0)) := by
  rw [smart_falls_to_bmp frame w h h4 h3 hrec]
  constructor
  · intro hz
    unfold save_as_bmp_fixed
    rw [if_pos hz]
  · intro hpos
    have hnz : ¬ bmpHeight frame w = 0 := by omega
    refine ⟨_, save_as_bmp_pos frame w h hnz, ?_, ?_⟩
    · rw [flatMap_length_uniform _ 3 _ (fun a _ => bmpCell_length frame _ a)]
      simp [Nat.mul_comm (bmpHeight frame w) w, Nat.mul_assoc]
    · intro i hi
      have hi' : i < bmpHeight frame w * w := by
        rw [Nat.mul_comm]
        exact hi
      have hq : ∀ j, j < 3 →
          ((List.range (bmpHeight frame w * w)).flatMap
            (bmpCell frame (bmpBpp frame w))).getD (3 * i + j) 0 =
          (bmpCell frame (bmpBpp frame w) i).getD j 0 := by
        intro j hj
        rw [flatMap_getD_uniform (bmpCell frame (bmpBpp frame w)) 3
          (fun a => bmpCell_length frame _ a)
          (List.range (bmpHeight frame w * w)) i j (by simpa using hi') hj,
          range_getD _ _ hi']
      have h0 := hq 0 (by omega)
      rw [Nat.add_zero] at h0
      have h1 := hq 1 (by omega)
      have h2 := hq 2 (by omega)
      constructor
      · intro hin
        have hcell : bmpCell frame (bmpBpp frame w) i =
            [frame.getD (i * bmpBpp frame w + 2) 0,
             frame.getD (i * bmpBpp frame w + 1) 0,
             frame.getD (i * bmpBpp frame w) 0] := by
          unfold bmpCell
          dsimp only
          rw [if_pos hin]
        exact ⟨by rw [h0, hcell]; rfl, by rw [h1, hcell]; rfl,
          by rw [h2, hcell]; rfl⟩
      · intro hout
        have hcell : bmpCell frame (bmpBpp frame w) i = [0, 0, 0] := by
          unfold bmpCell
          dsimp only
          rw [if_neg hout]
        exact ⟨by rw [h0, hcell]; rfl, by rw [h1, hcell]; rfl,
          by rw [h2, hcell]; rfl⟩

theorem C9_bmp_fallback_spec_witness :
    ∃ rgb, save_frame_as_image_smart (List.replicate 11 0) 2 2 =
      .bmpSaved 2 1 3 rgb := by
  obtain ⟨rgb, heq, -, -⟩ :=
    (C9_bmp_fallback_spec (List.replicate 11 0) 2 2 (by decide) (by decide)
      (by decide) (by decide)).2 (by decide)
  have hh : bmpHeight (List.replicate 11 0) 2 = 1 := by decide
  have hb : bmpBpp (List.replicate 11 0) 2 = 3 := by decide
  rw [hh, hb] at heq
  exact ⟨rgb, heq⟩

/-- C1 counterexample.  A 7-byte frame declared as 2×2 matches neither
`2*2*4` nor `2*2*3`, and resolution recovery fails (7 is not divisible
by 4); the claim says normalize must fail with an `UnsupportedPixelFormat`
error and persist nothing, but the code persists a 2×1 24-bit BMP (the
error enum has no `UnsupportedPixelFormat` variant at all). -/
theorem C1_counterexample :
    save_frame_as_image_smart (List.replicate 7 0) 2 2 =
      .bmpSaved 2 1 3 (List.replicate 6 0) := by decide

/-- C1 (amended).  When no layout matches even after resolution recovery,
normalization falls through to the BMP fallback rather than failing with
`UnsupportedPixelFormat` (no such error exists): it returns the
`"유효하지 않은 이미지 차원"` `CaptureFailure` — persisting nothing —
exactly when the recomputed fallback height is 0, and otherwise persists a
BMP image at the destination with extension replaced by `"bmp"`. -/
theorem C1_amended_bmp_fallback (frame : List Nat) (w h : Nat) (hw : 0 < w)
    (h4 : frame.length ≠ w * h * 4) (h3 : frame.length ≠ w * h * 3)
    (hrec : ¬(frame.length % 4 = 0 ∧ 0 < frame.length / 4 / w ∧
      frame.length / 4 / w ≤ h * 2 ∧
      w * (frame.length / 4 / w) * 4 = frame.length)) :
    (save_frame_as_image_smart frame w h =
        .failed (.captureFailure "유효하지 않은 이미지 차원") ↔
      bmpHeight frame w = 0) ∧
    (0 < bmpHeight frame w → ∃ rgb,
      save_frame_as_image_smart frame w h =
        .bmpSaved w (bmpHeight frame w) (bmpBpp frame w) rgb) := by
  rw [smart_falls_to_bmp frame w h h4 h3 hrec]
  constructor
  · constructor
    · intro hfail
      by_contra hnz
      rw [save_as_bmp_pos frame w h hnz] at hfail
      simp at hfail
    · intro hz
      unfold save_as_bmp_fixed
      rw [if_pos hz]
  · intro hpos
    exact ⟨_, save_as_bmp_pos frame w h (by omega)⟩

theorem C1_amended_bmp_fallback_witness :
    save_frame_as_image_smart (List.replicate 5 0) 100 1 =
      .failed (.captureFailure "유효하지 않은 이미지 차원") :=
  (C1_amended_bmp_fallback (List.replicate 5 0) 100 1 (by decide) (by decide)
    (by decide) (by decide)).1.mpr (by decide)

/-- C2 counterexample.  An 18-byte frame declared 2×2: the claim says
recovery is attempted for both 4 and 3 bytes per pixel, and the 3-byte
candidate (2*3*3 = 18, height 3 ≤ 2*2) must be accepted and converted into
a normalized RGBA image at the destination path.  The code never attempts
3-byte recovery (18 % 4 ≠ 0 skips recovery entirely) and lands in the
BMP fallback, emitting a 24-bit RGB BMP at the altered path instead. -/
theorem C2_counterexample :
    save_frame_as_image_smart (List.replicate 18 0) 2 2 =
      .bmpSaved 2 3 3 (List.replicate 18 0) := by decide

/-- C2 (amended).  Resolution recovery is attempted only for 4 bytes per
pixel, and only when the length is divisible by 4: with
`candidate_height = (len/4) / declared_width` accepted when positive and
at most `declared_height*2`, and with the conversion succeeding exactly
when `declared_width * candidate_height * 4 == len`, normalize persists an
RGBA image with the corrected height.  (3-byte recovery never runs; in
particular, for declared 100×50 and a buffer of `100*60*4` bytes it
succeeds and returns a 100×60 image — see the witness.) -/
theorem C2_recovery_four_bytes_only (frame : List Nat) (w h : Nat)
    (h4 : frame.length ≠ w * h * 4) (h3 : frame.length ≠ w * h * 3)
    (hm : frame.length % 4 = 0) (hch : 0 < frame.length / 4 / w)
    (hch2 : frame.length / 4 / w ≤ h * 2)
    (hex : w * (frame.length / 4 / w) * 4 = frame.length) :
    ∃ d, save_frame_as_image_smart frame w h =
        .rgbaSaved w (frame.length / 4 / w) d ∧
      d.length = frame.length := by
  refine ⟨bgraLoop frame w (frame.length / 4 / w), ?_, ?_⟩
  · simp only [save_frame_as_image_smart]
    rw [if_neg h4, if_neg h3, if_pos hm, if_pos (⟨hch, hch2⟩ : _ ∧ _),
      convert_bgra_ok frame w _ hex.symm]
  · rw [bgraLoop_length frame w _ hex.symm, hex]

theorem C2_recovery_four_bytes_only_witness :
    ∃ d, save_frame_as_image_smart (List.replicate 24000 0) 100 50 =
        .rgbaSaved 100 60 d ∧ d.length = 24000 := by
  have hlen : (List.replicate 24000 (0:Nat)).length = 24000 :=
    List.length_replicate 24000 0
  obtain ⟨d, heq, hdl⟩ := C2_recovery_four_bytes_only (List.replicate 24000 0)
    100 50 (by simp only [hlen]; decide) (by simp only [hlen]; decide)
    (by simp only [hlen]) (by simp only [hlen]; decide)
    (by simp only [hlen]; decide) (by simp only [hlen])
  rw [hlen] at heq hdl
  have h60 : (24000 : Nat) / 4 / 100 = 60 := by decide
  rw [h60] at heq
  exact ⟨d, heq, hdl⟩

theorem C3_exact_bgra_normalize_witness :
    ([1, 2, 3, 4] : List Nat).length = 1 * 1 * 4 ∧
    ∃ rgba, save_frame_as_image_smart [1, 2, 3, 4] 1 1 =
        .rgbaSaved 1 1 rgba ∧ rgba.length = 1 * 1 * 4 ∧
      ∀ i, i < 1 * 1 →
        rgba.getD (4 * i) 0 = ([1, 2, 3, 4] : List Nat).getD (4 * i + 2) 0 ∧
        rgba.getD (4 * i + 1) 0 =
          ([1, 2, 3, 4] : List Nat).getD (4 * i + 1) 0 ∧
        rgba.getD (4 * i + 2) 0 = ([1, 2, 3, 4] : List Nat).getD (4 * i) 0 ∧
        rgba.getD (4 * i + 3) 0 =
          ([1, 2, 3, 4] : List Nat).getD (4 * i + 3) 0 :=
  ⟨rfl, C3_exact_bgra_normalize [1, 2, 3, 4] 1 1 rfl⟩

theorem u32cast_ge100 (t : Int) (h1 : 100 ≤ t) (h2 : t < 4294967296) :
    100 ≤ u32cast t := by
  unfold u32cast
  rw [Int.emod_eq_of_lt (by omega) h2]
  omega

/-- C4 counterexample.  An in-bounds 50×50 rectangle inside a 1000×1000
image is handed to `crop_imm` with its own dimensions unchanged: no
clamping and no flooring at the documented minimum of 100 happen on the
in-bounds path, so the claim that every crop yields width/height of at
least 100 is false. -/
theorem C4_counterexample :
    (crop_image_to_window 1000 1000 ⟨10, 10, 50, 50⟩).width = 50 ∧
    ¬ 100 ≤ (crop_image_to_window 1000 1000 ⟨10, 10, 50, 50⟩).width := by
  decide

/-- C4 (amended).  The minimum-usable-size flooring applies on the
out-of-bounds adjustment branch only: whenever the rectangle fails the
bounds check — in particular when it lies entirely outside the source
image — the adjusted crop width and height are each at least 100, hence
never zero.  (An in-bounds rectangle is cropped with its own width and
height unchanged, which may be below 100.)  The `i32` range bounds reflect
the Rust field type. -/
theorem C4_amended_clamp_min100 (imgW imgH : Nat) (r : WindowRect)
    (hwb : r.width < 2147483648) (hhb : r.height < 2147483648)
    (hout : r.x < 0 ∨ r.y < 0 ∨ r.x + r.width > (imgW : Int) ∨
      r.y + r.height > (imgH : Int)) :
    100 ≤ (crop_image_to_window imgW imgH r).width ∧
    100 ≤ (crop_image_to_window imgW imgH r).height := by
  simp only [crop_image_to_window]
  rw [if_pos hout]
  constructor
  · exact u32cast_ge100 _ (le_max_right _ _) (by omega)
  · exact u32cast_ge100 _ (le_max_right _ _) (by omega)

theorem C4_amended_clamp_min100_witness :
    100 ≤ (crop_image_to_window 1000 1000 ⟨2000, 2000, 150, 150⟩).width ∧
    100 ≤ (crop_image_to_window 1000 1000 ⟨2000, 2000, 150, 150⟩).height :=
  C4_amended_clamp_min100 1000 1000 ⟨2000, 2000, 150, 150⟩ (by decide)
    (by decide) (by decide)

theorem try_alt_events (inject : Nat → Bool) (k : Nat) :
    (try_alternative_navigation inject k).events =
      (tryMethods inject k alternative_methods).2.2 := by
  unfold try_alternative_navigation
  dsimp only
  split <;> rfl

theorem tryMethods_methods (inject : Nat → Bool)
    (l : List NavigationMethod) :
    ∀ k e, e ∈ (tryMethods inject k l).2.2 → e.method ∈ l := by
  induction l with
  | nil =>
    intro k e he
    simp [tryMethods] at he
  | cons m rest ih =>
    intro k e he
    cases h : inject k with
    | true =>
      simp [tryMethods, navigate_with_retry, h] at he
      simp [he]
    | false =>
      simp [tryMethods, navigate_with_retry, h] at he
      rcases he with he | he
      · simp [he]
      · exact List.mem_cons_of_mem m (ih (k + 1) e he)

theorem for_program_cases (title : String) :
    NavigationMethod.for_program title = .rightArrow ∨
    NavigationMethod.for_program title = .pageDown ∨
    NavigationMethod.for_program title = .space := by
  unfold NavigationMethod.for_program
  dsimp only
  split
  · exact Or.inl rfl
  · split
    · exact Or.inl rfl
    · split
      · exact Or.inr (Or.inr rfl)
      · split
        · exact Or.inl rfl
        · split
          · exact Or.inr (Or.inl rfl)
          · exact Or.inl rfl

/-- C6.  Whenever the primary strategy's injection call returns an error,
the controller tries the alternatives in exactly the fixed order
directional-key (`RightArrow`), page-key (`PageDown`), whitespace-key
(`Space`), executing each at most once and stopping at the first success
(later alternatives are not executed), and it returns the
navigation-failure error if and only if every alternative also fails.  The
equation below exhibits the complete behaviour: result, injection-call
budget, and the exact ordered injection trace for each outcome. -/
theorem C6_fallback_chain (inject : Nat → Bool) (k : Nat) (title : String)
    (hfail : inject k = false) :
    navigate_to_next_page inject k title =
      if inject (k + 1) then
        ⟨.ok (), k + 2,
         [⟨NavigationMethod.for_program title, false⟩,
          ⟨.rightArrow, true⟩]⟩
      else if inject (k + 2) then
        ⟨.ok (), k + 3,
         [⟨NavigationMethod.for_program title, false⟩,
          ⟨.rightArrow, false⟩, ⟨.pageDown, true⟩]⟩
      else if inject (k + 3) then
        ⟨.ok (), k + 4,
         [⟨NavigationMethod.for_program title, false⟩,
          ⟨.rightArrow, false⟩, ⟨.pageDown, false⟩, ⟨.space, true⟩]⟩
      else
        ⟨.error (.keyboardInputFailure "모든 네비게이션 방법 실패"), k + 4,
         [⟨NavigationMethod.for_program title, false⟩,
          ⟨.rightArrow, false⟩, ⟨.pageDown, false⟩, ⟨.space, false⟩]⟩ := by
  cases h1 : inject (k + 1) <;> cases h2 : inject (k + 2) <;>
    cases h3 : inject (k + 3) <;>
    simp [navigate_to_next_page, navigate_with_retry,
      try_alternative_navigation, tryMethods, alternative_methods,
      hfail, h1, h2, h3]

theorem C6_fallback_chain_witness :
    navigate_to_next_page (fun _ => false) 0 "" =
      ⟨.error (.keyboardInputFailure "모든 네비게이션 방법 실패"), 4,
       [⟨.rightArrow, false⟩, ⟨.rightArrow, false⟩, ⟨.pageDown, false⟩,
        ⟨.space, false⟩]⟩ := by
  rw [C6_fallback_chain (fun _ => false) 0 "" rfl]
  decide

/-- C10.  For every window title the title-keyword lookup returns one of
directional-key, page-key, or whitespace-key; the fallback chain is exactly
those three; and every injection the page-advance operation performs uses
one of those three strategies — the `click(x, y)` variant is never selected
or executed. -/
theorem C10_no_click (title : String) :
    (NavigationMethod.for_program title = .rightArrow ∨
     NavigationMethod.for_program title = .pageDown ∨
     NavigationMethod.for_program title = .space) ∧
    alternative_methods = [.rightArrow, .pageDown, .space] ∧
    ∀ inject k e, e ∈ (navigate_to_next_page inject k title).events →
      e.method = .rightArrow ∨ e.method = .pageDown ∨ e.method = .space := by
  refine ⟨for_program_cases title, rfl, ?_⟩
  intro inject k e he
  simp only [navigate_to_next_page, navigate_with_retry] at he
  cases h : inject k with
  | true =>
    simp [h] at he
    rw [he]
    exact for_program_cases title
  | false =>
    simp [h, try_alt_events] at he
    rcases he with he | he
    · rw [he]
      exact for_program_cases title
    · have hm := tryMethods_methods inject alternative_methods (k + 1) e he
      simp [alternative_methods] at hm
      exact hm

theorem C10_no_click_witness :
    (⟨NavigationMethod.space, true⟩ : NavEvent).method = .rightArrow ∨
    (⟨NavigationMethod.space, true⟩ : NavEvent).method = .pageDown ∨
    (⟨NavigationMethod.space, true⟩ : NavEvent).method = .space :=
  (C10_no_click "yes24 viewer").2.2 (fun _ => true) 0 ⟨.space, true⟩
    (by decide)

/-- Page index of a navigation-controller invocation event. -/
def navPage : CapEvent → Option Nat
  | .navigated p _ => some p
  | _ => none

/-- Page index of a first-page reactivation event. -/
def reactPage : CapEvent → Option Nat
  | .reactivated p => some p
  | _ => none

/-- Page index of a persisted-image event. -/
def savedPage : CapEvent → Option Nat
  | .saved p _ => some p
  | _ => none

theorem capture_window_ok (env : PageEnv) (p : Nat) :
    (capture_window env p).1 = (env.direct p || env.full p) := by
  unfold capture_window
  cases env.direct p <;> cases env.full p <;> simp

theorem capture_filterMap_navPage (env : PageEnv) (p : Nat) :
    ((capture_window env p).2).filterMap navPage = [] := by
  unfold capture_window
  cases env.direct p <;> cases env.full p <;> simp [navPage]

theorem capture_filterMap_reactPage (env : PageEnv) (p : Nat) :
    ((capture_window env p).2).filterMap reactPage = [] := by
  unfold capture_window
  cases env.direct p <;> cases env.full p <;> simp [reactPage]

theorem capture_filterMap_savedPage (env : PageEnv) (p : Nat)
    (hp : env.direct p = true ∨ env.full p = true) :
    ((capture_window env p).2).filterMap savedPage = [p] := by
  unfold capture_window
  rcases hp with h | h
  · simp [h, savedPage]
  · cases hd : env.direct p <;> simp [hd, h, savedPage]

theorem capture_no_pause (env : PageEnv) (p q : Nat) :
    CapEvent.manualPause q ∉ (capture_window env p).2 := by
  unfold capture_window
  cases env.direct p <;> cases env.full p <;> simp

theorem tail_filterMap_navPage (env : PageEnv) (total p : Nat) :
    (pageTailEvs env total p).filterMap navPage =
      if p < total then [p] else [] := by
  unfold pageTailEvs
  by_cases h : p < total
  · rw [if_pos h, if_pos h]
    by_cases h1 : p = 1
    · subst h1
      cases hn : env.navOk 1 <;> simp [navPage]
    · rw [if_neg h1]
      cases hn : env.navOk p <;> simp [navPage]
  · rw [if_neg h, if_neg h]
    rfl

theorem tail_filterMap_reactPage (env : PageEnv) (total p : Nat) :
    (pageTailEvs env total p).filterMap reactPage =
      if p < total ∧ p = 1 then [p] else [] := by
  unfold pageTailEvs
  by_cases h : p < total
  · rw [if_pos h]
    by_cases h1 : p = 1
    · subst h1
      rw [if_pos (show (1:Nat) < total ∧ (1:Nat) = 1 from ⟨h, rfl⟩)]
      cases hn : env.navOk 1 <;> simp [reactPage]
    · rw [if_neg h1, if_neg (show ¬(p < total ∧ p = 1) by tauto)]
      cases hn : env.navOk p <;> simp [reactPage]
  · rw [if_neg h, if_neg (show ¬(p < total ∧ p = 1) by tauto)]
    rfl

theorem tail_filterMap_savedPage (env : PageEnv) (total p : Nat) :
    (pageTailEvs env total p).filterMap savedPage = [] := by
  unfold pageTailEvs
  by_cases h : p < total
  · rw [if_pos h]
    by_cases h1 : p = 1
    · subst h1
      cases hn : env.navOk 1 <;> simp [savedPage]
    · rw [if_neg h1]
      cases hn : env.navOk p <;> simp [savedPage]
  · rw [if_neg h]
    rfl

theorem tail_pause_mem (env : PageEnv) (total p q : Nat) :
    CapEvent.manualPause q ∈ pageTailEvs env total p ↔
      (q = p ∧ p < total ∧ env.navOk p = false) := by
  unfold pageTailEvs
  by_cases h : p < total
  · rw [if_pos h]
    by_cases h1 : p = 1
    · subst h1
      cases hn : env.navOk 1 <;> simp [h]
    · rw [if_neg h1]
      cases hn : env.navOk p <;> simp [h]
  · rw [if_neg h]
    simp [h]

theorem runPages_ok (env : PageEnv) (total : Nat) (l : List Nat)
    (hcap : ∀ p ∈ l, env.direct p = true ∨ env.full p = true) :
    runPages env total l =
      .ok (l.map pagePath,
        l.flatMap (fun p =>
          (capture_window env p).2 ++ pageTailEvs env total p)) := by
  induction l with
  | nil => rfl
  | cons p rest ih =>
    have hcw : (capture_window env p).1 = true := by
      rw [capture_window_ok]
      rcases hcap p (by simp) with h | h <;> simp [h]
    simp only [runPages, hcw, if_true,
      ih (fun q hq => hcap q (by simp [hq]))]
    simp [List.append_assoc]

theorem runPages_err (env : PageEnv) (total : Nat) (l : List Nat) (k : Nat)
    (hk : k ∈ l) (hdk : env.direct k = false) (hfk : env.full k = false) :
    runPages env total l =
      .error (.captureFailure "전체 화면 캡쳐 실패") := by
  induction l with
  | nil => simp at hk
  | cons p rest ih =>
    cases hcw : (capture_window env p).1
    · simp only [runPages, hcw]
      rfl
    · have hk' : k ∈ rest := by
        rcases List.mem_cons.mp hk with h | h
        · subst h
          rw [capture_window_ok, hdk, hfk] at hcw
          cases hcw
        · exact h
      simp only [runPages, hcw, if_true, ih hk']

theorem flatMap_range'_lt (N : Nat) (hN : 1 ≤ N) :
    (List.range' 1 N).flatMap (fun p => if p < N then [p] else []) =
      List.range' 1 (N - 1) := by
  have h1 : N - 1 + 1 = N := by omega
  have hsplit : List.range' 1 N = List.range' 1 (N - 1) ++ [1 + (N - 1)] := by
    rw [← List.range'_1_concat, h1]
  rw [hsplit, List.flatMap_append]
  have h3 : ∀ p ∈ List.range' 1 (N - 1),
      (if p < N then [p] else []) = [p] := by
    intro p hp
    have := List.mem_range'_1.mp hp
    rw [if_pos (by omega)]
  rw [List.flatMap_congr h3, List.flatMap_singleton']
  have h4 : ¬ 1 + (N - 1) < N := by omega
  simp [h4]

theorem flatMap_range'_first (N : Nat) (hN : 2 ≤ N) :
    (List.range' 1 N).flatMap (fun p => if p < N ∧ p = 1 then [p] else []) =
      [1] := by
  have h1 : N = (N - 1) + 1 := by omega
  have hsplit : List.range' 1 N = 1 :: List.range' 2 (N - 1) := by
    conv_lhs => rw [h1]
    rfl
  rw [hsplit]
  simp only [List.flatMap_cons]
  rw [if_pos (show 1 < N ∧ True from ⟨by omega, trivial⟩)]
  have h3 : ∀ p ∈ List.range' 2 (N - 1),
      (if p < N ∧ p = 1 then [p] else []) = [] := by
    intro p hp
    have := List.mem_range'_1.mp hp
    rw [if_neg (by omega)]
  rw [List.flatMap_congr h3]
  simp

/-- C5.  For every page the orchestrator first attempts direct region
capture; on any direct-capture failure it falls back to full-display
capture plus cropping to the clamped region, so that even when direct
capture fails on every call the run still persists `page_count` images —
one path per page, in page order. -/
theorem C5_fallback_produces_all_pages (env : PageEnv) (N : Nat)
    (hd : ∀ p, env.direct p = false) (hf : ∀ p, env.full p = true) :
    (∀ p, capture_window env p =
      (true, [.directTried p false, .fullTried p true, .cropped p,
              .saved p (pagePath p)])) ∧
    ∃ evs, capture_pages env N = .ok ((List.range' 1 N).map pagePath, evs) ∧
      ((List.range' 1 N).map pagePath).length = N := by
  constructor
  · intro p
    simp [capture_window, hd p, hf p]
  · exact ⟨_, runPages_ok env N _ (fun p _ => Or.inr (hf p)), by simp⟩

theorem C5_fallback_produces_all_pages_witness :
    (∀ p, capture_window ⟨fun _ => false, fun _ => true, fun _ => true⟩ p =
      (true, [.directTried p false, .fullTried p true, .cropped p,
              .saved p (pagePath p)])) ∧
    ∃ evs, capture_pages ⟨fun _ => false, fun _ => true, fun _ => true⟩ 3 =
        .ok ((List.range' 1 3).map pagePath, evs) ∧
      ((List.range' 1 3).map pagePath).length = 3 :=
  C5_fallback_produces_all_pages ⟨fun _ => false, fun _ => true, fun _ => true⟩
    3 (fun _ => rfl) (fun _ => rfl)

/-- C7 counterexample.  With `page_count = 1` (a run in which every capture
succeeds) the loop persists `page_001` but the extra first-page focus
reacquisition never happens — it sits inside the `page < page_count`
guard — so the claim's "exactly once for every run" fails at `N = 1`. -/
theorem C7_counterexample :
    capture_pages ⟨fun _ => true, fun _ => true, fun _ => true⟩ 1 =
      .ok ([pagePath 1],
        [CapEvent.directTried 1 true, CapEvent.saved 1 (pagePath 1)]) ∧
    ([CapEvent.directTried 1 true,
      CapEvent.saved 1 (pagePath 1)]).filterMap reactPage = [] := by
  exact ⟨by decide, by decide⟩

/-- C7 (amended, for runs of at least two pages).  If every capture
succeeds and `2 ≤ page_count`, the loop returns exactly the paths
`page_001 … page_{N:03}` in ascending page order, invokes the navigation
controller exactly `N-1` times — once after each page `1 … N-1`, never
after page `N` — and performs the extra first-page focus reacquisition
exactly once, immediately after page 1's capture events.  (At
`page_count = 1` the reacquisition does not happen at all.) -/
theorem C7_page_loop_shape (env : PageEnv) (N : Nat) (hN : 2 ≤ N)
    (hcap : ∀ p, env.direct p = true ∨ env.full p = true) :
    ∃ evs, capture_pages env N = .ok ((List.range' 1 N).map pagePath, evs) ∧
      evs.filterMap navPage = List.range' 1 (N - 1) ∧
      evs.filterMap reactPage = [1] ∧
      ∃ rest, evs = (capture_window env 1).2 ++
        CapEvent.reactivated 1 :: rest := by
  have hrun := runPages_ok env N (List.range' 1 N) (fun p _ => hcap p)
  refine ⟨_, hrun, ?_, ?_, ?_⟩
  · rw [List.filterMap_flatMap]
    have hper : ∀ p ∈ List.range' 1 N,
        ((capture_window env p).2 ++ pageTailEvs env N p).filterMap navPage =
          (if p < N then [p] else []) := by
      intro p hp
      rw [List.filterMap_append, capture_filterMap_navPage,
        tail_filterMap_navPage]
      rfl
    rw [List.flatMap_congr hper, flatMap_range'_lt N (by omega)]
  · rw [List.filterMap_flatMap]
    have hper : ∀ p ∈ List.range' 1 N,
        ((capture_window env p).2 ++ pageTailEvs env N p).filterMap reactPage
          = (if p < N ∧ p = 1 then [p] else []) := by
      intro p hp
      rw [List.filterMap_append, capture_filterMap_reactPage,
        tail_filterMap_reactPage]
      rfl
    rw [List.flatMap_congr hper, flatMap_range'_first N hN]
  · have hsplit : List.range' 1 N = 1 :: List.range' 2 (N - 1) := by
      have h1 : N = (N - 1) + 1 := by omega
      conv_lhs => rw [h1]
      rfl
    rw [hsplit, List.flatMap_cons]
    have htail : pageTailEvs env N 1 =
        CapEvent.reactivated 1 ::
          CapEvent.navigated 1 (env.navOk 1) ::
          (if env.navOk 1 then [] else [CapEvent.manualPause 1]) := by
      unfold pageTailEvs
      rw [if_pos (by omega : 1 < N), if_pos rfl]
      rfl
    rw [htail]
    refine ⟨(CapEvent.navigated 1 (env.navOk 1) ::
      (if env.navOk 1 then [] else [CapEvent.manualPause 1])) ++
      (List.range' 2 (N - 1)).flatMap
        (fun p => (capture_window env p).2 ++ pageTailEvs env N p), ?_⟩
    simp [List.append_assoc]

theorem C7_page_loop_shape_witness :
    ∃ evs, capture_pages ⟨fun _ => true, fun _ => true, fun _ => true⟩ 3 =
        .ok ((List.range' 1 3).map pagePath, evs) ∧
      evs.filterMap navPage = List.range' 1 (3 - 1) ∧
      evs.filterMap reactPage = [1] ∧
      ∃ rest, evs =
        (capture_window ⟨fun _ => true, fun _ => true, fun _ => true⟩ 1).2 ++
          CapEvent.reactivated 1 :: rest :=
  C7_page_loop_shape ⟨fun _ => true, fun _ => true, fun _ => true⟩ 3
    (by omega) (fun p => Or.inl rfl)

/-- C8.  A capture failure at any page aborts the whole run by propagating
the error (no partial path list is returned), whereas a navigation failure
never aborts: it becomes a blocking manual-intervention pause after which
the loop continues — every page is still persisted exactly once, in order,
and a pause event occurs precisely at the pages whose navigation failed. -/
theorem C8_failure_semantics (env : PageEnv) (N : Nat) :
    (∀ k, k ∈ List.range' 1 N → env.direct k = false → env.full k = false →
      capture_pages env N =
        .error (.captureFailure "전체 화면 캡쳐 실패")) ∧
    ((∀ p, env.direct p = true ∨ env.full p = true) →
      ∃ evs, capture_pages env N =
          .ok ((List.range' 1 N).map pagePath, evs) ∧
        evs.filterMap savedPage = List.range' 1 N ∧
        ∀ q, CapEvent.manualPause q ∈ evs ↔
          (q ∈ List.range' 1 N ∧ q < N ∧ env.navOk q = false)) := by
  constructor
  · intro k hk hdk hfk
    exact runPages_err env N _ k hk hdk hfk
  · intro hcap
    have hrun := runPages_ok env N (List.range' 1 N) (fun p _ => hcap p)
    refine ⟨_, hrun, ?_, ?_⟩
    · rw [List.filterMap_flatMap]
      have hper : ∀ p ∈ List.range' 1 N,
          ((capture_window env p).2 ++
            pageTailEvs env N p).filterMap savedPage = [p] := by
        intro p hp
        rw [List.filterMap_append, capture_filterMap_savedPage env p (hcap p),
          tail_filterMap_savedPage]
        rfl
      rw [List.flatMap_congr hper, List.flatMap_singleton']
    · intro q
      rw [List.mem_flatMap]
      constructor
      · rintro ⟨p, hp, hin⟩
        rcases List.mem_append.mp hin with hc | ht
        · exact absurd hc (capture_no_pause env p q)
        · obtain ⟨rfl, h2, h3⟩ := (tail_pause_mem env N p q).mp ht
          exact ⟨hp, h2, h3⟩
      · rintro ⟨hq, h2, h3⟩
        exact ⟨q, hq, List.mem_append.mpr (Or.inr
          ((tail_pause_mem env N q q).mpr ⟨rfl, h2, h3⟩))⟩

theorem C8_failure_semantics_witness :
    capture_pages ⟨fun _ => false, fun _ => false, fun _ => true⟩ 2 =
      .error (.captureFailure "전체 화면 캡쳐 실패") ∧
    ∃ evs, capture_pages ⟨fun _ => true, fun _ => true, fun _ => false⟩ 2 =
        .ok ((List.range' 1 2).map pagePath, evs) ∧
      evs.filterMap savedPage = List.range' 1 2 ∧
      ∀ q, CapEvent.manualPause q ∈ evs ↔
        (q ∈ List.range' 1 2 ∧ q < 2 ∧ (fun _ => false) q = false) := by
  constructor
  · exact (C8_failure_semantics ⟨fun _ => false, fun _ => false,
      fun _ => true⟩ 2).1 1 (by decide) rfl rfl
  · exact (C8_failure_semantics ⟨fun _ => true, fun _ => true,
      fun _ => false⟩ 2).2 (fun p => Or.inl rfl)
